import Mathlib

/-!
Verification of the OpenAI-compatible chat-completion gateway adapter
(`src/gateway/openai-http.ts`): request normalization, the non-streaming
response builder, and the streaming protocol state machine.

The loosely-typed JavaScript values flowing through the adapter are embedded
as a JSON-like inductive `JVal`. The handler's streaming section is embedded
as a step function over an explicit mutable-state record, driven by the
signals that can reach it (agent-bus events, the request close event, reply
deliveries, the run-start callback, and the settlement of the dispatch
promise); each callback runs atomically on the single-threaded event loop,
so one signal is one step.
-/

namespace OpenClawGw

/-- A JSON-like value, embedding the `unknown`-typed data the handler
receives (`null`/`undefined` are both embedded as `vnull`: the adapter only
ever distinguishes them through optional-chaining, which treats them alike). -/
inductive JVal where
  | vnull : JVal
  | vbool : Bool → JVal
  | vnum : Int → JVal
  | vstr : String → JVal
  | varr : List JVal → JVal
  | vobj : List (String × JVal) → JVal

/-- First-match lookup in an object's field list. -/
def lookupField : List (String × JVal) → String → Option JVal
  | [], _ => none
  | (k1, v) :: fs, k => if k1 = k then some v else lookupField fs k

/-- Property access `x[k]`: `none` models `undefined` (non-objects, including
arrays, have no string-keyed fields the adapter ever reads). -/
def getField : JVal → String → Option JVal
  | .vobj fs, k => lookupField fs k
  | _, _ => none

/-- Index access into a JSON array. -/
def getIdx : JVal → Nat → Option JVal
  | .varr xs, i => xs.get? i
  | _, _ => none

/-- Field access yielding a string only when the value is a string
(`typeof x === "string"` guard). -/
def getStr (v : JVal) (k : String) : Option String :=
  match getField v k with
  | some (.vstr s) => some s
  | _ => none

/-- JavaScript truthiness of a possibly-absent value, as used by
`Boolean(payload.stream)`. -/
def truthy : Option JVal → Bool
  | none => false
  | some .vnull => false
  | some (.vbool b) => b
  | some (.vnum n) => n != 0
  | some (.vstr s) => s != ""
  | some (.varr _) => true
  | some (.vobj _) => true

/-- Whether a character is whitespace for `String.prototype.trim`
purposes. -/
def isJsWhitespace (c : Char) : Bool :=
  c = ' ' || c = '\t' || c = '\n' || c = '\r'

/-- JavaScript `String.prototype.trim`, modelled structurally over the
character list (so that it computes by kernel reduction): strip leading and
trailing whitespace. -/
def jsTrim (s : String) : String :=
  String.mk (((s.data.dropWhile isJsWhitespace).reverse.dropWhile
    isJsWhitespace).reverse)

/-- JavaScript `Array.prototype.join(sep)`. -/
def joinSep (sep : String) : List String → String
  | [] => ""
  | [x] => x
  | x :: y :: xs => x ++ sep ++ joinSep sep (y :: xs)

/-- `extractTextContent` on one element of a content-part array: an object
with `type:"text"` or `type:"input_text"` yields its string `text` field,
otherwise a string `input_text` field is used, otherwise the part
contributes an empty string. -/
def partText (p : JVal) : String :=
  match getField p "type", getStr p "text", getStr p "input_text" with
  | some (.vstr "text"), some t, _ => t
  | some (.vstr "input_text"), some t, _ => t
  | _, _, some it => it
  | _, _, _ => ""

/-- `extractTextContent`: a string passes through; an array of parts is
flattened part-by-part, empty contributions filtered out (`filter(Boolean)`),
and joined with newlines; anything else yields the empty string. -/
def extractTextContent : JVal → String
  | .vstr s => s
  | .varr parts => joinSep "\n" (((parts.map partText).filter (fun t => t ≠ "")))
  | _ => ""

/-- `asMessages`: the `messages` value if it is an array, else the empty list. -/
def asMessages : JVal → List JVal
  | .varr xs => xs
  | _ => []

/-- A rendered conversational turn (`HistoryEntry` of
`src/auto-reply/reply/history.ts`). -/
structure HistoryEntry where
  sender : String
  body : String
deriving DecidableEq, Repr

/-- One element of the handler's `conversationEntries` accumulator: the
normalized role together with the rendered entry. -/
structure ConvEntry where
  role : String
  entry : HistoryEntry
deriving DecidableEq, Repr

/-- Trimmed `role` of a message when it is a string, else empty. -/
def msgRole (m : JVal) : String :=
  match getStr m "role" with
  | some s => jsTrim s
  | none => ""

/-- Trimmed flattened text content of a message. -/
def msgContent (m : JVal) : String :=
  jsTrim (extractTextContent ((getField m "content").getD .vnull))

/-- Trimmed `name` of a message when it is a string, else empty. -/
def msgName (m : JVal) : String :=
  match getStr m "name" with
  | some s => jsTrim s
  | none => ""

/-- The effect of one message on the `buildAgentPrompt` loop: skipped
(`none`), contributed to `systemParts` (`inl`), or pushed onto
`conversationEntries` (`inr`). Skips non-objects, empty roles and empty
contents; maps `function` to `tool`; drops any other unsupported role. -/
def classifyMsg (m : JVal) : Option (String ⊕ ConvEntry) :=
  let role := msgRole m
  let content := msgContent m
  if role = "" ∨ content = "" then none
  else if role = "system" ∨ role = "developer" then some (.inl content)
  else
    let normalizedRole := if role = "function" then "tool" else role
    if normalizedRole = "user" ∨ normalizedRole = "assistant" ∨ normalizedRole = "tool" then
      let name := msgName m
      let sender :=
        if normalizedRole = "assistant" then "Assistant"
        else if normalizedRole = "user" then "User"
        else if name ≠ "" then "Tool:" ++ name
        else "Tool"
      some (.inr ⟨normalizedRole, ⟨sender, content⟩⟩)
    else none

/-- The `systemParts` accumulated by the `buildAgentPrompt` loop, in order. -/
def systemPartsOf (msgs : List JVal) : List String :=
  msgs.filterMap fun m =>
    match classifyMsg m with
    | some (.inl s) => some s
    | _ => none

/-- The `conversationEntries` accumulated by the `buildAgentPrompt` loop,
in order. -/
def conversationEntriesOf (msgs : List JVal) : List ConvEntry :=
  msgs.filterMap fun m =>
    match classifyMsg m with
    | some (.inr e) => some e
    | _ => none

/-- Whether an entry's normalized role is `user` or `tool`. -/
def isUserOrTool (e : ConvEntry) : Bool :=
  e.role = "user" || e.role = "tool"

/-- Index of the last `user`/`tool` entry, embedding the source's downward
`for` loop that breaks at the first hit scanning from the end. -/
def lastUserToolIdx : List ConvEntry → Option Nat
  | [] => none
  | e :: es =>
    match lastUserToolIdx es with
    | some i => some (i + 1)
    | none => if isUserOrTool e then some 0 else none

/-- `currentIndex` after the fallback `if (currentIndex < 0) currentIndex =
length - 1`. -/
def currentIndexOf (entries : List ConvEntry) : Nat :=
  (lastUserToolIdx entries).getD (entries.length - 1)

/-- The entry chosen as the current turn. -/
def currentEntryOf (entries : List ConvEntry) : Option ConvEntry :=
  entries.get? (currentIndexOf entries)

/-- The entries before the current turn, rendered as history. -/
def historyOf (entries : List ConvEntry) : List HistoryEntry :=
  (entries.take (currentIndexOf entries)).map ConvEntry.entry

/-- The `formatEntry` closure: `sender: body`. -/
def formatEntry (e : HistoryEntry) : String :=
  e.sender ++ ": " ++ e.body

/-- Modelled from the spec: the implementation of
`buildHistoryContextFromEntries` lives in `src/auto-reply/reply/history.ts`,
which is not among the provided sources. Per the spec, all entries before
the chosen current entry become history context preceding the current
message; we model the rendering as each prior entry formatted with
`formatEntry`, followed by the current message, joined by newlines. The
call site passes `entries = history ++ [current]` and the formatted current
message separately, which this model mirrors. -/
def buildHistoryContextFromEntries (entries : List HistoryEntry)
    (currentMessage : String) : String :=
  joinSep "\n" (entries.dropLast.map formatEntry ++ [currentMessage])

/-- The message string computed from the conversation entries: empty when
there are no entries; the current entry's bare body when it has no history;
otherwise the history-context rendering of history plus current turn. -/
def promptMessageOf (entries : List ConvEntry) : String :=
  match currentEntryOf entries with
  | none => ""
  | some cur =>
    let hist := historyOf entries
    if hist.length = 0 then cur.entry.body
    else buildHistoryContextFromEntries (hist ++ [cur.entry]) (formatEntry cur.entry)

/-- The normalized prompt returned by `buildAgentPrompt`. -/
structure NormalizedPrompt where
  message : String
  extraSystemPrompt : Option String
deriving DecidableEq, Repr

/-- `buildAgentPrompt` on an already-extracted message list. -/
def buildAgentPromptCore (msgs : List JVal) : NormalizedPrompt :=
  { message := promptMessageOf (conversationEntriesOf msgs)
    extraSystemPrompt :=
      let sp := systemPartsOf msgs
      if sp.length > 0 then some (joinSep "\n\n" sp) else none }

/-- `buildAgentPrompt` on the raw `messages` value. -/
def buildAgentPrompt (messagesVal : JVal) : NormalizedPrompt :=
  buildAgentPromptCore (asMessages messagesVal)

/-! ## Request routing (handler prelude shared by both paths) -/

/-- `coerceRequest`: falsy or non-object values (JavaScript `typeof`-object
excludes strings, numbers, booleans; `null` is falsy) are replaced by the
empty request; objects — arrays included, as in JavaScript — pass through. -/
def coerceRequest (v : JVal) : JVal :=
  match v with
  | .vobj fs => .vobj fs
  | .varr xs => .varr xs
  | _ => .vobj []

/-- The 400 body sent when normalization yields an empty message. -/
def missingUserMessageJson : JVal :=
  .vobj [("error", .vobj
    [ ("message", .vstr "Missing user message in `messages`."),
      ("type", .vstr "invalid_request_error") ])]

/-- Where the handler goes after normalizing the body: either it answers
with an error response before ever invoking the dispatch collaborator, or
it proceeds to a dispatch invocation (non-streaming or streaming). -/
inductive RouteResult where
  | reject (status : Nat) (body : JVal)
  | dispatch (stream : Bool) (prompt : NormalizedPrompt)

/-- The handler prelude after auth and body reading: coerce the payload,
read `stream`, normalize `messages`, and reject with 400 when the
normalized message is empty — the dispatch collaborator is invoked only on
the `dispatch` result. -/
def routeRequest (body : JVal) : RouteResult :=
  let payload := coerceRequest body
  let stream := truthy (getField payload "stream")
  let prompt := buildAgentPrompt ((getField payload "messages").getD .vnull)
  if prompt.message = "" then .reject 400 missingUserMessageJson
  else .dispatch stream prompt

/-! ## Non-streaming response builder -/

/-- The dispatcher's `deliver` callback acting on the `finalReplyParts`
accumulator: non-`final` fragments are discarded; the text is trimmed with
absent text as empty; blank results are dropped. -/
def deliverStepParts (parts : List String) (kind : String) (text : Option String) :
    List String :=
  if kind = "final" then
    let t := (text.map jsTrim).getD ""
    if t = "" then parts else parts ++ [t]
  else parts

/-- `finalReplyParts` after a sequence of `deliver(payload, info)` calls,
each given as `(info.kind, payload.text)`. -/
def finalPartsOf (delivers : List (String × Option String)) : List String :=
  delivers.foldl (fun acc d => deliverStepParts acc d.1 d.2) []

/-- The 200 `chat.completion` body of the non-streaming path. -/
def chatCompletionJson (runId model : String) (created : Int) (content : String) : JVal :=
  .vobj
    [ ("id", .vstr runId),
      ("object", .vstr "chat.completion"),
      ("created", .vnum created),
      ("model", .vstr model),
      ("choices", .varr
        [ .vobj
            [ ("index", .vnum 0),
              ("message", .vobj
                [("role", .vstr "assistant"), ("content", .vstr content)]),
              ("finish_reason", .vstr "stop") ] ]),
      ("usage", .vobj
        [ ("prompt_tokens", .vnum 0),
          ("completion_tokens", .vnum 0),
          ("total_tokens", .vnum 0) ]) ]

/-- The 500 body of the non-streaming catch branch. -/
def apiErrorJson (message : String) : JVal :=
  .vobj [("error", .vobj [("message", .vstr message), ("type", .vstr "api_error")])]

/-- The non-streaming branch: on dispatch resolution, join the accumulated
final fragments with a blank line (placeholder when the join is empty) into
a single-choice 200 body; on a dispatch exception (already stringified),
answer 500 instead of propagating. -/
def nonStreamingResponse (runId model : String) (created : Int)
    (delivers : List (String × Option String)) (outcome : Except String Unit) :
    Nat × JVal :=
  match outcome with
  | .ok _ =>
    let joined := joinSep "\n\n" (finalPartsOf delivers)
    let content := if joined = "" then "No response from OpenClaw." else joined
    (200, chatCompletionJson runId model created content)
  | .error e => (500, apiErrorJson e)

/-! ## Streaming protocol state machine

Each SSE write is modelled by the fields that vary between the handler's
`writeSse` calls — the delta's `role` and `content` and the chunk's
`finish_reason` — plus the `[DONE]` sentinel of `writeDone`; the constant
chunk metadata (`id`, `object`, `created`, `model`) is the same for every
chunk of a request and is elided. -/

/-- The `finish_reason` slot of a chunk: absent from the object, explicit
`null`, or `"stop"`. -/
inductive FinishVal where
  | absent
  | nullv
  | stop
deriving DecidableEq, Repr

/-- One write to the response stream. -/
inductive SseWrite where
  | chunk (role : Option String) (content : Option String) (finish : FinishVal)
  | done
deriving DecidableEq, Repr

/-- The role-announcement chunk: `delta` of `role:"assistant"`, no
`finish_reason` key. -/
def roleChunk : SseWrite := .chunk (some "assistant") none .absent

/-- A content chunk: `delta` of `content`, `finish_reason: null`. -/
def contentChunk (c : String) : SseWrite := .chunk none (some c) .nullv

/-- The finish chunk: empty `delta`, `finish_reason: "stop"`. -/
def finishChunk : SseWrite := .chunk none none .stop

/-- The dispatch-rejection chunk: `delta` of the error text with
`finish_reason: "stop"` on the same chunk. -/
def errorChunk (err : String) : SseWrite :=
  .chunk none (some ("Error: " ++ err)) .stop

/-- The handler's per-request mutable state for the streaming path,
together with the subscription/abort/socket resources it manages. -/
structure StreamSt where
  wroteRole : Bool
  closed : Bool
  agentRunStarted : Bool
  finalReplyParts : List String
  unsubscribed : Bool
  aborted : Bool
  ended : Bool
deriving DecidableEq, Repr

/-- The state at `setSseHeaders`, before any signal arrives. -/
def initStreamSt : StreamSt :=
  ⟨false, false, false, [], false, false, false⟩

/-- An event published on the agent bus: correlation id, stream name, and
payload. -/
structure AgentEvent where
  runId : String
  stream : String
  data : JVal

/-- `evt.data?.delta` / `evt.data?.text` selection of the assistant branch:
a string delta wins, else a string text, else empty. -/
def assistantContentOf (data : JVal) : String :=
  match getStr data "delta" with
  | some d => d
  | none =>
    match getStr data "text" with
    | some t => t
    | none => ""

/-- Whether a lifecycle payload's phase is `end` or `error`. -/
def lifecycleEnds (data : JVal) : Bool :=
  match getStr data "phase" with
  | some "end" => true
  | some "error" => true
  | _ => false

/-- The `onAgentEvent` callback: events for other runs and events after
closure are ignored; a matching assistant event with non-empty content
writes the role chunk first if not yet written, then one content chunk; a
matching lifecycle `end`/`error` event writes the finish chunk, closes,
unsubscribes, writes the sentinel and ends the response. -/
def onAgentEventStep (rid : String) (s : StreamSt) (e : AgentEvent) :
    StreamSt × List SseWrite :=
  if e.runId ≠ rid then (s, [])
  else if s.closed then (s, [])
  else if e.stream = "assistant" then
    let content := assistantContentOf e.data
    if content = "" then (s, [])
    else if s.wroteRole then (s, [contentChunk content])
    else ({ s with wroteRole := true }, [roleChunk, contentChunk content])
  else if e.stream = "lifecycle" then
    if lifecycleEnds e.data then
      ({ s with closed := true, unsubscribed := true, ended := true },
        [finishChunk, .done])
    else (s, [])
  else (s, [])

/-- The `req.on("close")` handler: close, unsubscribe, abort — no write. -/
def reqCloseStep (s : StreamSt) : StreamSt × List SseWrite :=
  ({ s with closed := true, unsubscribed := true, aborted := true }, [])

/-- The dispatch promise's `.then` continuation (after `waitForIdle`):
a no-op when already closed; otherwise, when no agent run started and the
joined final reply is non-empty, write the role chunk if needed, one content
chunk with the joined reply and the finish chunk; in every non-closed case
finish by closing, unsubscribing, writing the sentinel and ending. -/
def dispatchThenStep (s : StreamSt) : StreamSt × List SseWrite :=
  if s.closed then (s, [])
  else
    let content := joinSep "\n\n" s.finalReplyParts
    let fallback := !s.agentRunStarted && content ≠ ""
    let pre : List SseWrite :=
      if s.agentRunStarted then []
      else if content = "" then []
      else if s.wroteRole then [contentChunk content, finishChunk]
      else [roleChunk, contentChunk content, finishChunk]
    ({ s with
        wroteRole := s.wroteRole || fallback,
        closed := true, unsubscribed := true, ended := true },
      pre ++ [.done])

/-- The dispatch promise's `.catch` continuation: a no-op when already
closed; otherwise one chunk carrying the error text and `finish_reason:
"stop"`, then close, unsubscribe, sentinel, end. -/
def dispatchCatchStep (err : String) (s : StreamSt) : StreamSt × List SseWrite :=
  if s.closed then (s, [])
  else
    ({ s with closed := true, unsubscribed := true, ended := true },
      [errorChunk err, .done])

/-- The dispatcher `deliver` callback in the streaming path (same sink as
the non-streaming one). -/
def deliverStep (kind : String) (text : Option String) (s : StreamSt) :
    StreamSt × List SseWrite :=
  ({ s with finalReplyParts := deliverStepParts s.finalReplyParts kind text }, [])

/-- The `onAgentRunStart` callback. -/
def agentRunStartStep (s : StreamSt) : StreamSt × List SseWrite :=
  ({ s with agentRunStarted := true }, [])

/-- A signal delivered to the streaming handler; each runs atomically on
the event loop. -/
inductive Sig where
  | agentEvt (e : AgentEvent)
  | reqClose
  | deliver (kind : String) (text : Option String)
  | agentRunStart
  | dispatchThen
  | dispatchCatch (err : String)

/-- Dispatch of one signal to its handler. -/
def stepSig (rid : String) (s : StreamSt) : Sig → StreamSt × List SseWrite
  | .agentEvt e => onAgentEventStep rid s e
  | .reqClose => reqCloseStep s
  | .deliver kind text => deliverStep kind text s
  | .agentRunStart => agentRunStartStep s
  | .dispatchThen => dispatchThenStep s
  | .dispatchCatch err => dispatchCatchStep err s

/-- Run a sequence of signals, collecting all stream writes in order. -/
def runSigs (rid : String) (s : StreamSt) : List Sig → StreamSt × List SseWrite
  | [] => (s, [])
  | g :: gs =>
    let sw := stepSig rid s g
    let rest := runSigs rid sw.1 gs
    (rest.1, sw.2 ++ rest.2)

/-- The writes produced by a signal sequence. -/
def runWrites (rid : String) (s : StreamSt) (gs : List Sig) : List SseWrite :=
  (runSigs rid s gs).2

/-- Number of `[DONE]` sentinels in a write sequence. -/
def doneCount : List SseWrite → Nat
  | [] => 0
  | .done :: ws => doneCount ws + 1
  | .chunk _ _ _ :: ws => doneCount ws

/-! ### Specification-side abstractions of the closure discipline -/

/-- Whether a signal, arriving while the stream is open, transitions it to
closed. -/
def sigCloses (rid : String) : Sig → Bool
  | .agentEvt e => e.runId = rid && e.stream = "lifecycle" && lifecycleEnds e.data
  | .reqClose => true
  | .dispatchThen => true
  | .dispatchCatch _ => true
  | _ => false

/-- Whether a signal both closes the stream and writes the sentinel
(a client disconnect closes silently). -/
def sigWriterCloses (rid : String) (g : Sig) : Bool :=
  sigCloses rid g && (match g with | .reqClose => false | _ => true)

/-- Whether the first closing signal of the sequence is one that writes the
sentinel (false when no signal closes the stream at all, or when the client
disconnect is the first closer). -/
def firstCloserWrites (rid : String) : List Sig → Bool
  | [] => false
  | g :: gs => if sigCloses rid g then sigWriterCloses rid g else firstCloserWrites rid gs

/-- The delta carried by a signal when it is an assistant-stream event for
this run, else empty. -/
def sigDelta (rid : String) : Sig → String
  | .agentEvt e =>
    if e.runId = rid && e.stream = "assistant" then assistantContentOf e.data else ""
  | _ => ""

/-- Specification of P5: the non-empty assistant deltas for this run that
arrive strictly before the stream closes, in arrival order. Tracks only a
single closed bit. -/
def openAssistantDeltas (rid : String) : Bool → List Sig → List String
  | _, [] => []
  | c, g :: gs =>
    if c then []
    else
      (let d := sigDelta rid g; if d = "" then [] else [d]) ++
        openAssistantDeltas rid (c || sigCloses rid g) gs

/-- The contents of the plain content chunks (`delta.content` present,
`finish_reason: null`) of a write sequence, in order. -/
def contentDeltas : List SseWrite → List String
  | [] => []
  | .chunk none (some c) .nullv :: ws => c :: contentDeltas ws
  | .chunk (some _) _ _ :: ws => contentDeltas ws
  | .chunk none none _ :: ws => contentDeltas ws
  | .chunk none (some _) .absent :: ws => contentDeltas ws
  | .chunk none (some _) .stop :: ws => contentDeltas ws
  | .done :: ws => contentDeltas ws

/-- Hypothesis making a signal sequence honest about the run-start
callback: any dispatch settlement is preceded by the agent-run-start
callback unless the run had already started — exactly the situations in
which assistant deltas can flow at all. -/
def ThenAfterStart (started : Bool) : List Sig → Prop
  | [] => True
  | .dispatchThen :: gs => started = true ∧ ThenAfterStart started gs
  | .agentRunStart :: gs => ThenAfterStart true gs
  | _ :: gs => ThenAfterStart started gs

/-- A signal that, from the initial state, neither writes nor changes the
handler state: an event for another run, an assistant event with empty
content, a lifecycle event that is not `end`/`error`, an unknown stream, or
a delivery that accumulates nothing. -/
def quietSig (rid : String) : Sig → Bool
  | .agentEvt e =>
    !(e.runId = rid) ||
      (if e.stream = "assistant" then assistantContentOf e.data = ""
       else if e.stream = "lifecycle" then !(lifecycleEnds e.data)
       else true)
  | .deliver kind text => deliverStepParts [] kind text = []
  | _ => false

/-! ## Derived accessors and specification-side definitions used in claim
statements -/

/-- Field access defaulting to `vnull`, for stating facts about response
bodies. -/
def getAt (v : JVal) (k : String) : JVal :=
  (getField v k).getD .vnull

/-- Array index access defaulting to `vnull`. -/
def getAtIdx (v : JVal) (i : Nat) : JVal :=
  (getIdx v i).getD .vnull

/-- Whether a message's trimmed role is `system` or `developer`. -/
def isSysDev (m : JVal) : Bool :=
  msgRole m = "system" || msgRole m = "developer"

/-- Specification-side description of the system preamble: the flattened
non-empty bodies of the `system`/`developer` messages, in order. -/
def sysBodies (msgs : List JVal) : List String :=
  msgs.filterMap fun m =>
    if isSysDev m ∧ msgContent m ≠ "" then some (msgContent m) else none

/-- The three-turn example request of P2: `[user:"A", assistant:"B",
user:"C"]`. -/
def msgsABC : JVal := .varr
  [ .vobj [("role", .vstr "user"), ("content", .vstr "A")],
    .vobj [("role", .vstr "assistant"), ("content", .vstr "B")],
    .vobj [("role", .vstr "user"), ("content", .vstr "C")] ]

/-- The P7 example request body: one user message with empty content. -/
def emptyUserBody : JVal :=
  .vobj [("messages", .varr [.vobj [("role", .vstr "user"), ("content", .vstr "")]])]

/-! ## Helper lemmas -/

theorem append_eq_empty_left {a b : String} (h : a ++ b = "") : a = "" := by
  have hd := congrArg String.data h
  rw [String.data_append] at hd
  exact String.ext (List.append_eq_nil.mp hd).1

theorem joinSep_ne_empty {ps : List String} {sep : String}
    (h : ∀ p ∈ ps, p ≠ "") (hne : ps ≠ []) : joinSep sep ps ≠ "" := by
  match ps with
  | [] => exact absurd rfl hne
  | [x] =>
    have hx := h x (by simp)
    simpa [joinSep] using hx
  | x :: y :: xs =>
    intro hcontra
    have hx := h x (by simp)
    have : (x ++ sep) ++ joinSep sep (y :: xs) = "" := by
      simpa [joinSep, String.append_assoc] using hcontra
    exact hx (append_eq_empty_left (append_eq_empty_left this))

theorem finalPartsOf_ne_empty (ds : List (String × Option String)) :
    ∀ p ∈ finalPartsOf ds, p ≠ "" := by
  have main : ∀ (ds : List (String × Option String)) (acc : List String),
      (∀ p ∈ acc, p ≠ "") →
      ∀ p ∈ ds.foldl (fun acc d => deliverStepParts acc d.1 d.2) acc, p ≠ "" := by
    intro ds
    induction ds with
    | nil => intro acc hacc; simpa using hacc
    | cons d rest ih =>
      intro acc hacc
      refine ih _ ?_
      intro p hp
      by_cases hk : d.1 = "final"
      · by_cases ht : (Option.map jsTrim d.2).getD "" = ""
        · simp only [deliverStepParts, hk, if_true, ht] at hp
          exact hacc p hp
        · simp only [deliverStepParts, hk, if_true, ht, if_neg, if_false] at hp
          rcases List.mem_append.mp hp with hmem | hmem
          · exact hacc p hmem
          · simp only [List.mem_singleton] at hmem
            subst hmem
            exact ht
      · simp only [deliverStepParts, hk, if_false] at hp
        exact hacc p hp
  exact main ds [] (by simp)

theorem joined_eq_empty_iff (ds : List (String × Option String)) :
    joinSep "\n\n" (finalPartsOf ds) = "" ↔ finalPartsOf ds = [] := by
  constructor
  · intro h
    by_contra hne
    exact joinSep_ne_empty (finalPartsOf_ne_empty ds) hne h
  · intro h
    rw [h]
    rfl

theorem lastUserToolIdx_none_spec :
    ∀ l, lastUserToolIdx l = none →
      ∀ j e, l.get? j = some e → isUserOrTool e = false := by
  intro l
  induction l with
  | nil => intro _ j e h; simp at h
  | cons a as ih =>
    intro hnone j e hget
    unfold lastUserToolIdx at hnone
    cases hcase : lastUserToolIdx as with
    | some i => rw [hcase] at hnone; simp at hnone
    | none =>
      rw [hcase] at hnone
      by_cases ha : isUserOrTool a
      · simp [ha] at hnone
      · cases j with
        | zero =>
          simp only [List.get?_cons_zero, Option.some.injEq] at hget
          subst hget
          simpa using ha
        | succ j2 =>
          exact ih hcase j2 e (by simpa using hget)

theorem lastUserToolIdx_some_mem :
    ∀ l i, lastUserToolIdx l = some i →
      ∃ e, l.get? i = some e ∧ isUserOrTool e = true := by
  intro l
  induction l with
  | nil => intro i h; simp [lastUserToolIdx] at h
  | cons a as ih =>
    intro i h
    unfold lastUserToolIdx at h
    cases hcase : lastUserToolIdx as with
    | some i2 =>
      rw [hcase] at h
      simp only [Option.some.injEq] at h
      subst h
      obtain ⟨e, hget, he⟩ := ih i2 hcase
      exact ⟨e, by simpa using hget, he⟩
    | none =>
      rw [hcase] at h
      by_cases ha : isUserOrTool a
      · simp only [ha, if_pos] at h
        simp only [Option.some.injEq] at h
        subst h
        exact ⟨a, by simp, ha⟩
      · simp [ha] at h

theorem lastUserToolIdx_some_last :
    ∀ l i, lastUserToolIdx l = some i →
      ∀ j e, i < j → l.get? j = some e → isUserOrTool e = false := by
  intro l
  induction l with
  | nil => intro i h; simp [lastUserToolIdx] at h
  | cons a as ih =>
    intro i h j e hij hget
    unfold lastUserToolIdx at h
    cases hcase : lastUserToolIdx as with
    | some i2 =>
      rw [hcase] at h
      simp only [Option.some.injEq] at h
      subst h
      cases j with
      | zero => omega
      | succ j2 =>
        exact ih i2 hcase j2 e (by omega) (by simpa using hget)
    | none =>
      rw [hcase] at h
      by_cases ha : isUserOrTool a
      · simp only [ha, if_pos] at h
        simp only [Option.some.injEq] at h
        subst h
        cases j with
        | zero => omega
        | succ j2 =>
          exact lastUserToolIdx_none_spec as hcase j2 e (by simpa using hget)
      · simp [ha] at h

theorem doneCount_append : ∀ a b : List SseWrite,
    doneCount (a ++ b) = doneCount a + doneCount b := by
  intro a b
  induction a with
  | nil => simp [doneCount]
  | cons w ws ih =>
    cases w with
    | chunk r c f => simpa [doneCount] using ih
    | done => simp [doneCount, ih]; omega

theorem contentDeltas_append : ∀ a b : List SseWrite,
    contentDeltas (a ++ b) = contentDeltas a ++ contentDeltas b := by
  intro a b
  induction a with
  | nil => simp [contentDeltas]
  | cons w ws ih =>
    cases w with
    | done => simpa [contentDeltas] using ih
    | chunk r c f =>
      cases r with
      | some s => simpa [contentDeltas] using ih
      | none =>
        cases c with
        | none => simpa [contentDeltas] using ih
        | some str =>
          cases f with
          | absent => simpa [contentDeltas] using ih
          | stop => simpa [contentDeltas] using ih
          | nullv => simp [contentDeltas, ih]

theorem step_closed (rid : String) (s : StreamSt) (g : Sig) (h : s.closed = true) :
    (stepSig rid s g).2 = [] ∧ (stepSig rid s g).1.closed = true := by
  cases g with
  | agentEvt e => simp [stepSig, onAgentEventStep, h]
  | reqClose => simp [stepSig, reqCloseStep]
  | deliver k t => simp [stepSig, deliverStep, h]
  | agentRunStart => simp [stepSig, agentRunStartStep, h]
  | dispatchThen => simp [stepSig, dispatchThenStep, h]
  | dispatchCatch err => simp [stepSig, dispatchCatchStep, h]

theorem run_closed (rid : String) :
    ∀ gs (s : StreamSt), s.closed = true → runWrites rid s gs = [] := by
  intro gs
  induction gs with
  | nil => intro s _; rfl
  | cons g rest ih =>
    intro s h
    obtain ⟨hw, hc⟩ := step_closed rid s g h
    simp only [runWrites, runSigs]
    rw [show (stepSig rid s g).2 = [] from hw]
    simpa [runWrites] using ih _ hc

theorem step_done_closes (rid : String) (s : StreamSt) (g : Sig) (h : s.closed = false) :
    doneCount (stepSig rid s g).2 = (if sigWriterCloses rid g then 1 else 0) ∧
      (stepSig rid s g).1.closed = sigCloses rid g := by
  cases g with
  | agentEvt e =>
    simp only [stepSig, onAgentEventStep, sigWriterCloses, sigCloses]
    split_ifs with h1 h2 h3 h4 <;> simp_all [doneCount]
  | reqClose => simp [stepSig, reqCloseStep, sigWriterCloses, sigCloses, doneCount]
  | deliver k t => simp [stepSig, deliverStep, sigWriterCloses, sigCloses, doneCount, h]
  | agentRunStart =>
    simp [stepSig, agentRunStartStep, sigWriterCloses, sigCloses, doneCount, h]
  | dispatchThen =>
    have hw : sigWriterCloses rid Sig.dispatchThen = true := rfl
    have hcl : sigCloses rid Sig.dispatchThen = true := rfl
    rw [hw, hcl, if_pos rfl]
    simp only [stepSig, dispatchThenStep, h, Bool.false_eq_true, if_false]
    refine ⟨?_, by trivial⟩
    split_ifs <;> simp [doneCount, doneCount_append, roleChunk, contentChunk, finishChunk]
  | dispatchCatch err =>
    simp [stepSig, dispatchCatchStep, h, sigWriterCloses, sigCloses, doneCount,
      errorChunk]

theorem run_done_count (rid : String) :
    ∀ gs (s : StreamSt), s.closed = false →
      doneCount (runWrites rid s gs) = (if firstCloserWrites rid gs then 1 else 0) := by
  intro gs
  induction gs with
  | nil => intro s _; rfl
  | cons g rest ih =>
    intro s h
    obtain ⟨hd, hc⟩ := step_done_closes rid s g h
    have hsplit : runWrites rid s (g :: rest) =
        (stepSig rid s g).2 ++ runWrites rid (stepSig rid s g).1 rest := rfl
    rw [hsplit, doneCount_append, hd]
    by_cases hg : sigCloses rid g = true
    · rw [run_closed rid rest _ (by rw [hc, hg])]
      simp [doneCount, firstCloserWrites, hg]
    · have hg1 : sigCloses rid g = false := by simpa using hg
      have hwc : sigWriterCloses rid g = false := by simp [sigWriterCloses, hg1]
      rw [ih _ (by rw [hc, hg1])]
      simp [firstCloserWrites, hg1, hwc]

theorem openAssistantDeltas_closed (rid : String) :
    ∀ gs, openAssistantDeltas rid true gs = [] := by
  intro gs
  cases gs <;> simp [openAssistantDeltas]

theorem run_content_deltas (rid : String) :
    ∀ gs (s : StreamSt), ThenAfterStart s.agentRunStarted gs →
      contentDeltas (runWrites rid s gs) = openAssistantDeltas rid s.closed gs := by
  intro gs
  induction gs with
  | nil => intro s _; rfl
  | cons g rest ih =>
    intro s hTAS
    have hsplit : runWrites rid s (g :: rest) =
        (stepSig rid s g).2 ++ runWrites rid (stepSig rid s g).1 rest := rfl
    rw [hsplit, contentDeltas_append]
    by_cases hcl : s.closed = true
    · obtain ⟨hw, hc⟩ := step_closed rid s g hcl
      rw [hw, run_closed rid rest _ hc]
      simp [openAssistantDeltas, hcl, contentDeltas]
    · have hcl0 : s.closed = false := by simpa using hcl
      rw [hcl0]
      cases g with
      | agentEvt e =>
        have hTAS2 : ThenAfterStart s.agentRunStarted rest := hTAS
        by_cases hr : e.runId = rid
        · by_cases hs1 : e.stream = "assistant"
          · by_cases hcnt : assistantContentOf e.data = ""
            · have hstep : stepSig rid s (.agentEvt e) = (s, []) := by
                simp [stepSig, onAgentEventStep, hr, hcl0, hs1, hcnt]
              rw [hstep]
              simp only [contentDeltas]
              rw [ih s hTAS2, hcl0]
              simp [openAssistantDeltas, sigDelta, sigCloses, hr, hs1, hcnt]
            · have houts : contentDeltas (stepSig rid s (.agentEvt e)).2 =
                  [assistantContentOf e.data] := by
                simp only [stepSig, onAgentEventStep, hr, hcl0]
                by_cases hw : s.wroteRole = true <;>
                  simp [hr, hs1, hcnt, hw, contentDeltas, roleChunk, contentChunk]
              have hst : (stepSig rid s (.agentEvt e)).1.agentRunStarted =
                  s.agentRunStarted := by
                simp only [stepSig, onAgentEventStep, hr, hcl0]
                by_cases hw : s.wroteRole = true <;> simp [hr, hs1, hcnt, hw]
              have hstc : (stepSig rid s (.agentEvt e)).1.closed = false := by
                simp only [stepSig, onAgentEventStep, hr, hcl0]
                by_cases hw : s.wroteRole = true <;> simp [hr, hs1, hcnt, hw, hcl0]
              rw [houts, ih _ (by rw [hst]; exact hTAS2), hstc]
              simp [openAssistantDeltas, sigDelta, sigCloses, hr, hs1, hcnt]
          · by_cases hs2 : e.stream = "lifecycle"
            · by_cases hends : lifecycleEnds e.data = true
              · have hstep : stepSig rid s (.agentEvt e) =
                    ({ s with closed := true, unsubscribed := true, ended := true },
                      [finishChunk, .done]) := by
                  simp [stepSig, onAgentEventStep, hr, hcl0, hs1, hs2, hends]
                rw [hstep, run_closed rid rest _ (by rfl)]
                simp [openAssistantDeltas, sigDelta, sigCloses, hr, hs1, hs2, hends,
                  contentDeltas, finishChunk, openAssistantDeltas_closed]
              · have hstep : stepSig rid s (.agentEvt e) = (s, []) := by
                  simp [stepSig, onAgentEventStep, hr, hcl0, hs1, hs2, hends]
                rw [hstep]
                simp only [contentDeltas]
                rw [ih s hTAS2, hcl0]
                simp [openAssistantDeltas, sigDelta, sigCloses, hr, hs1, hs2, hends]
            · have hstep : stepSig rid s (.agentEvt e) = (s, []) := by
                simp [stepSig, onAgentEventStep, hr, hcl0, hs1, hs2]
              rw [hstep]
              simp only [contentDeltas]
              rw [ih s hTAS2, hcl0]
              simp [openAssistantDeltas, sigDelta, sigCloses, hr, hs1, hs2]
        · have hstep : stepSig rid s (.agentEvt e) = (s, []) := by
            simp [stepSig, onAgentEventStep, hr]
          rw [hstep]
          simp only [contentDeltas]
          rw [ih s hTAS, hcl0]
          simp [openAssistantDeltas, sigDelta, sigCloses, hr]
      | reqClose =>
        have hstep : stepSig rid s .reqClose =
            ({ s with closed := true, unsubscribed := true, aborted := true }, []) := rfl
        rw [hstep, run_closed rid rest _ (by rfl)]
        simp [openAssistantDeltas, sigDelta, sigCloses, contentDeltas,
          openAssistantDeltas_closed]
      | deliver k t =>
        have hstep : stepSig rid s (.deliver k t) =
            ({ s with finalReplyParts := deliverStepParts s.finalReplyParts k t },
              []) := rfl
        rw [hstep]
        simp only [contentDeltas]
        have hTAS2 : ThenAfterStart s.agentRunStarted rest := hTAS
        rw [ih { s with finalReplyParts := deliverStepParts s.finalReplyParts k t }
          hTAS2]
        simp [openAssistantDeltas, sigDelta, sigCloses, hcl0]
      | agentRunStart =>
        have hstep : stepSig rid s .agentRunStart =
            ({ s with agentRunStarted := true }, []) := rfl
        have hTAS2 : ThenAfterStart true rest := hTAS
        rw [hstep]
        simp only [contentDeltas]
        rw [ih { s with agentRunStarted := true } hTAS2]
        simp [openAssistantDeltas, sigDelta, sigCloses, hcl0]
      | dispatchThen =>
        obtain ⟨hstart, hrest⟩ := hTAS
        have hstep : (stepSig rid s .dispatchThen).2 = [.done] := by
          simp [stepSig, dispatchThenStep, hcl0, hstart]
        have hstc : (stepSig rid s .dispatchThen).1.closed = true := by
          simp [stepSig, dispatchThenStep, hcl0]
        rw [hstep, run_closed rid rest _ hstc]
        simp [openAssistantDeltas, sigDelta, sigCloses, contentDeltas,
          openAssistantDeltas_closed]
      | dispatchCatch err =>
        have hstep : stepSig rid s (.dispatchCatch err) =
            ({ s with closed := true, unsubscribed := true, ended := true },
              [errorChunk err, .done]) := by
          simp [stepSig, dispatchCatchStep, hcl0]
        rw [hstep, run_closed rid rest _ (by rfl)]
        simp [openAssistantDeltas, sigDelta, sigCloses, contentDeltas, errorChunk,
          openAssistantDeltas_closed]

theorem runSigs_append (rid : String) :
    ∀ (as bs : List Sig) (s : StreamSt),
      runSigs rid s (as ++ bs) =
        ((runSigs rid (runSigs rid s as).1 bs).1,
          (runSigs rid s as).2 ++ (runSigs rid (runSigs rid s as).1 bs).2) := by
  intro as
  induction as with
  | nil => intro bs s; simp [runSigs]
  | cons g gs ih =>
    intro bs s
    simp only [List.cons_append, runSigs, List.append_eq]
    rw [ih bs (stepSig rid s g).1]
    simp [List.append_assoc]

theorem quiet_step (rid : String) (g : Sig) (h : quietSig rid g = true) :
    stepSig rid initStreamSt g = (initStreamSt, []) := by
  cases g with
  | agentEvt e =>
    by_cases hr : e.runId = rid
    · simp only [quietSig, hr] at h
      by_cases hs1 : e.stream = "assistant"
      · simp only [hs1, if_pos] at h
        have hcnt : assistantContentOf e.data = "" := by simpa using h
        simp [stepSig, onAgentEventStep, hr, initStreamSt, hs1, hcnt]
      · by_cases hs2 : e.stream = "lifecycle"
        · simp only [hs1, hs2, if_neg, if_pos] at h
          have hends : lifecycleEnds e.data = false := by simpa using h
          simp [stepSig, onAgentEventStep, hr, initStreamSt, hs1, hs2, hends]
        · simp [stepSig, onAgentEventStep, hr, initStreamSt, hs1, hs2]
    · simp [stepSig, onAgentEventStep, hr]
  | reqClose => simp [quietSig] at h
  | deliver k t =>
    have hd : deliverStepParts [] k t = [] := by simpa [quietSig] using h
    simp only [stepSig, deliverStep]
    rw [show initStreamSt.finalReplyParts = [] from rfl, hd]
    rfl
  | agentRunStart => simp [quietSig] at h
  | dispatchThen => simp [quietSig] at h
  | dispatchCatch err => simp [quietSig] at h

theorem quiet_run (rid : String) :
    ∀ pre : List Sig, (∀ g ∈ pre, quietSig rid g = true) →
      runSigs rid initStreamSt pre = (initStreamSt, []) := by
  intro pre
  induction pre with
  | nil => intro _; rfl
  | cons g gs ih =>
    intro h
    have hg := quiet_step rid g (h g (by simp))
    simp only [runSigs, hg]
    exact congrArg (fun p => (p.1, [] ++ p.2)) (ih fun g2 hmem => h g2 (by simp [hmem]))

theorem classify_sysdev_not_inr (m : JVal) (h : isSysDev m = true)
    (e : ConvEntry) : classifyMsg m ≠ some (.inr e) := by
  have h2 : msgRole m = "system" ∨ msgRole m = "developer" := by
    simpa [isSysDev] using h
  intro hc
  rcases h2 with h2 | h2 <;>
    · by_cases hcc : msgContent m = "" <;> simp [classifyMsg, h2, hcc] at hc

theorem conversationEntriesOf_filter_sysdev (msgs : List JVal) :
    conversationEntriesOf (msgs.filter fun m => !isSysDev m) =
      conversationEntriesOf msgs := by
  induction msgs with
  | nil => rfl
  | cons m rest ih =>
    simp only [conversationEntriesOf] at ih ⊢
    by_cases h : isSysDev m = true
    · rw [show (m :: rest).filter (fun m => !isSysDev m) =
          rest.filter (fun m => !isSysDev m) by simp [List.filter, h]]
      rw [ih, List.filterMap_cons]
      cases hcm : classifyMsg m with
      | none => simp [hcm]
      | some v =>
        cases v with
        | inl s => simp [hcm]
        | inr e => exact absurd hcm (classify_sysdev_not_inr m h e)
    · rw [show (m :: rest).filter (fun m => !isSysDev m) =
          m :: rest.filter (fun m => !isSysDev m) by simp [List.filter, h]]
      rw [List.filterMap_cons, List.filterMap_cons, ih]

theorem systemPartsOf_eq_sysBodies (msgs : List JVal) :
    systemPartsOf msgs = sysBodies msgs := by
  induction msgs with
  | nil => rfl
  | cons m rest ih =>
    simp only [systemPartsOf, sysBodies] at ih ⊢
    rw [List.filterMap_cons, List.filterMap_cons, ih]
    by_cases hs : isSysDev m = true
    · have h2 : msgRole m = "system" ∨ msgRole m = "developer" := by
        simpa [isSysDev] using hs
      by_cases hcc : msgContent m = ""
      · rcases h2 with h2 | h2 <;> simp [classifyMsg, h2, hcc, hs]
      · rcases h2 with h2 | h2 <;> simp [classifyMsg, h2, hcc, hs]
    · have hnotsys : ¬(msgRole m = "system" ∨ msgRole m = "developer") := by
        simpa [isSysDev] using hs
      have h0 : isSysDev m = false := by simpa using hs
      by_cases hempty : msgRole m = "" ∨ msgContent m = ""
      · simp [classifyMsg, hempty, h0]
      · simp only [classifyMsg, if_neg hempty, if_neg hnotsys, h0,
          Bool.false_eq_true, false_and, if_false]
        by_cases hp : (if msgRole m = "function" then "tool" else msgRole m) = "user" ∨
            (if msgRole m = "function" then "tool" else msgRole m) = "assistant" ∨
            (if msgRole m = "function" then "tool" else msgRole m) = "tool" <;>
          simp [hp]

/-! ## Claim theorems -/

/-- C2, counterexample: for the input `[user:"A", assistant:"B", user:"C"]`
the normalized prompt's `message` field is NOT the bare string `"C"` — the
code folds the history context into `message` (under the spec-modelled
history renderer it is `"User: A\nAssistant: B\nUser: C"`), so the claim's
`message == "C"` fails as stated. -/
theorem c2_message_is_not_bare_current :
    (buildAgentPrompt msgsABC).message ≠ "C" ∧
    (buildAgentPrompt msgsABC).message = "User: A\nAssistant: B\nUser: C" := by
  constructor
  · decide
  · rfl

/-- C2, amended: for `[user:"A", assistant:"B", user:"C"]` the entry chosen
as the current turn is the user entry `"C"` and the history context is
exactly the entries for `"A"` and `"B"` in order; `message` is the
history-context rendering of those history entries together with the
current turn (not the bare current body). In general the chosen index is
the last entry whose normalized role is `user` or `tool` — every later
entry is neither — and when no such entry exists it is the last entry
overall, with all earlier entries becoming history. -/
theorem c2_current_turn_selection :
    currentEntryOf (conversationEntriesOf (asMessages msgsABC)) =
      some ⟨"user", ⟨"User", "C"⟩⟩ ∧
    historyOf (conversationEntriesOf (asMessages msgsABC)) =
      [⟨"User", "A"⟩, ⟨"Assistant", "B"⟩] ∧
    (buildAgentPrompt msgsABC).message =
      buildHistoryContextFromEntries
        [⟨"User", "A"⟩, ⟨"Assistant", "B"⟩, ⟨"User", "C"⟩] "User: C" ∧
    (∀ (l : List ConvEntry) (i : Nat), lastUserToolIdx l = some i →
      currentIndexOf l = i ∧
      (∃ e, l.get? i = some e ∧ isUserOrTool e = true) ∧
      (∀ j e, i < j → l.get? j = some e → isUserOrTool e = false)) ∧
    (∀ l : List ConvEntry, lastUserToolIdx l = none →
      currentIndexOf l = l.length - 1 ∧
      ∀ j e, l.get? j = some e → isUserOrTool e = false) := by
  refine ⟨by decide, by decide, by rfl, ?_, ?_⟩
  · intro l i h
    exact ⟨by simp [currentIndexOf, h], lastUserToolIdx_some_mem l i h,
      lastUserToolIdx_some_last l i h⟩
  · intro l h
    exact ⟨by simp [currentIndexOf, h], lastUserToolIdx_none_spec l h⟩

/-- Witness for the amended C2: the general selection facts applied at the
concrete three-turn example. -/
theorem c2_current_turn_selection_witness :
    currentIndexOf (conversationEntriesOf (asMessages msgsABC)) = 2 ∧
    lastUserToolIdx (conversationEntriesOf (asMessages msgsABC)) = some 2 :=
  ⟨(c2_current_turn_selection.2.2.2.1
      (conversationEntriesOf (asMessages msgsABC)) 2 (by decide)).1,
    by decide⟩

/-- C7: `system`/`developer` messages never contribute to the conversation
entries (hence neither to the normalized `message` nor to any history
entry, which are built from those entries alone): filtering them out leaves
the entries and the resulting `message` unchanged. Their flattened
non-empty bodies appear exactly, in order, in `extraSystemPrompt`, joined
with a double newline; `extraSystemPrompt` is absent when there are none. -/
theorem c7_system_role_isolation (msgs : List JVal) :
    conversationEntriesOf (msgs.filter fun m => !isSysDev m) =
      conversationEntriesOf msgs ∧
    (buildAgentPromptCore (msgs.filter fun m => !isSysDev m)).message =
      (buildAgentPromptCore msgs).message ∧
    systemPartsOf msgs = sysBodies msgs ∧
    (buildAgentPromptCore msgs).extraSystemPrompt =
      (if (sysBodies msgs).length > 0 then some (joinSep "\n\n" (sysBodies msgs))
        else none) := by
  refine ⟨conversationEntriesOf_filter_sysdev msgs, ?_, systemPartsOf_eq_sysBodies msgs, ?_⟩
  · show promptMessageOf (conversationEntriesOf (msgs.filter fun m => !isSysDev m)) =
      promptMessageOf (conversationEntriesOf msgs)
    rw [conversationEntriesOf_filter_sysdev msgs]
  · show (if (systemPartsOf msgs).length > 0
        then some (joinSep "\n\n" (systemPartsOf msgs)) else none) = _
    rw [systemPartsOf_eq_sysBodies msgs]

/-- C8: a request whose messages normalize to an empty `message` — here
`messages: [role:"user", content:""]` — is answered with the 400
`invalid_request_error` body citing a missing user message, before any
dispatch invocation (the routing result is a rejection, not a dispatch). -/
theorem c8_empty_message_rejected :
    routeRequest emptyUserBody = .reject 400 missingUserMessageJson ∧
    getAt (getAt missingUserMessageJson "error") "type" =
      .vstr "invalid_request_error" ∧
    getAt (getAt missingUserMessageJson "error") "message" =
      .vstr "Missing user message in `messages`." :=
  ⟨rfl, rfl, rfl⟩

/-- C9: request normalization is total — whenever the coerced payload's
`messages` field is not an array (in particular whenever the body itself is
not an object, since the coercion then yields the empty request), the
handler answers with the 400 missing-user-message rejection and never
reaches a dispatch invocation; moreover a body that is neither object nor
array coerces to the empty request. -/
theorem c9_total_coercion (v : JVal)
    (h : ∀ xs : List JVal, getField (coerceRequest v) "messages" ≠ some (.varr xs)) :
    routeRequest v = .reject 400 missingUserMessageJson ∧
    ((∀ fs, v ≠ .vobj fs) → (∀ xs, v ≠ .varr xs) → coerceRequest v = .vobj []) := by
  constructor
  · have hmsgs : asMessages ((getField (coerceRequest v) "messages").getD .vnull) =
        [] := by
      cases hg : getField (coerceRequest v) "messages" with
      | none => rfl
      | some m =>
        cases m with
        | varr xs => exact absurd hg (h xs)
        | vnull => rfl
        | vbool b => rfl
        | vnum n => rfl
        | vstr s => rfl
        | vobj fs => rfl
    simp only [routeRequest, buildAgentPrompt, hmsgs]
    rfl
  · intro h1 h2
    cases v with
    | vobj fs => exact absurd rfl (h1 fs)
    | varr xs => exact absurd rfl (h2 xs)
    | vnull => rfl
    | vbool b => rfl
    | vnum n => rfl
    | vstr s => rfl

/-- Witness for C9: a plain-string body is rejected with 400 and coerces to
the empty request. -/
theorem c9_total_coercion_witness :
    routeRequest (.vstr "nonsense") = .reject 400 missingUserMessageJson ∧
    coerceRequest (.vstr "nonsense") = .vobj [] := by
  have h := c9_total_coercion (.vstr "nonsense")
    (by intro xs hc; simp [coerceRequest, getField, lookupField] at hc)
  exact ⟨h.1, h.2 (by intro fs hc; cases hc) (by intro xs hc; cases hc)⟩

/-- C1, counterexample: the claim demands exactly one terminal [DONE] for
every interleaving of the four termination signals, but when the client
disconnect arrives first the stream is closed silently and the later
dispatch completion is a no-op — zero sentinels are written. -/
theorem c1_disconnect_first_no_sentinel :
    runWrites "run" initStreamSt [Sig.reqClose, Sig.dispatchThen] = [] ∧
    doneCount (runWrites "run" initStreamSt [Sig.reqClose, Sig.dispatchThen]) = 0 :=
  ⟨rfl, rfl⟩

/-- C1, amended: over any signal sequence, the number of [DONE] sentinels
written is exactly one when the first closing signal is a lifecycle
end/error event, a dispatch completion, or a dispatch rejection, and zero
when the client disconnect closes first (or nothing closes) — in
particular, at most one sentinel is ever written; and once the `closed`
flag is true, no signal produces any write and the flag never reverts. -/
theorem c1_closure_discipline (rid : String) (gs : List Sig) :
    doneCount (runWrites rid initStreamSt gs) =
      (if firstCloserWrites rid gs then 1 else 0) ∧
    doneCount (runWrites rid initStreamSt gs) ≤ 1 ∧
    (∀ (s : StreamSt) (g : Sig), s.closed = true →
      (stepSig rid s g).2 = [] ∧ (stepSig rid s g).1.closed = true) := by
  refine ⟨run_done_count rid gs initStreamSt rfl, ?_,
    fun s g hcl => step_closed rid s g hcl⟩
  rw [run_done_count rid gs initStreamSt rfl]
  split <;> omega

/-- Witness for the amended C1: a dispatch rejection writes exactly one
sentinel, and a signal arriving at a closed stream writes nothing. -/
theorem c1_closure_discipline_witness :
    doneCount (runWrites "run" initStreamSt [Sig.dispatchCatch "x"]) = 1 ∧
    (stepSig "run" ⟨true, true, true, ["y"], true, true, true⟩ Sig.dispatchThen).2 =
      [] := by
  have h := c1_closure_discipline "run" [Sig.dispatchCatch "x"]
  refine ⟨by rw [h.1]; rfl,
    (h.2.2 ⟨true, true, true, ["y"], true, true, true⟩ Sig.dispatchThen rfl).1⟩

/-- C3, counterexample: on dispatch rejection the adapter writes a single
chunk carrying both the error text and `finish_reason: "stop"` — the
output contains neither a plain content chunk with the error text nor a
separate finish chunk with empty delta, contradicting the claimed
content-chunk-then-finish-chunk sequence. -/
theorem c3_no_separate_finish_chunk :
    runWrites "run" initStreamSt [Sig.dispatchCatch "boom"] =
      [SseWrite.chunk none (some "Error: boom") FinishVal.stop, SseWrite.done] ∧
    finishChunk ∉ runWrites "run" initStreamSt [Sig.dispatchCatch "boom"] ∧
    contentChunk "Error: boom" ∉
      runWrites "run" initStreamSt [Sig.dispatchCatch "boom"] := by
  exact ⟨rfl, by decide, by decide⟩

/-- C3, amended: when the dispatch invocation rejects and the stream is not
already closed, the adapter emits exactly one chunk whose delta carries the
human-readable error text and which itself carries `finish_reason: "stop"`
(content and finish combined in one chunk, not two), then the [DONE]
sentinel, and the stream is closed. -/
theorem c3_dispatch_error_combined_chunk (s : StreamSt) (err : String)
    (h : s.closed = false) :
    (dispatchCatchStep err s).2 = [errorChunk err, SseWrite.done] ∧
    errorChunk err =
      SseWrite.chunk none (some ("Error: " ++ err)) FinishVal.stop ∧
    (dispatchCatchStep err s).1.closed = true := by
  simp [dispatchCatchStep, h, errorChunk]

/-- Witness for the amended C3 at the initial state with error "boom". -/
theorem c3_dispatch_error_combined_chunk_witness :
    (dispatchCatchStep "boom" initStreamSt).2 =
      [errorChunk "boom", SseWrite.done] :=
  (c3_dispatch_error_combined_chunk initStreamSt "boom" rfl).1

/-- C4, counterexample: the claim's trigger condition ("dispatch completes
without the bridge having seen a lifecycle end/error event") is not what
the code tests — the code tests the `agentRunStarted` flag. When the agent
run started but no lifecycle end/error ever fired (the defensive path) and
final reply text "x" was accumulated, the code closes with only [DONE]:
no role, content, or finish chunk is written, contradicting the claim. -/
theorem c4_defensive_close_drops_text :
    runWrites "run" initStreamSt
      [Sig.agentRunStart, Sig.deliver "final" (some "x"), Sig.dispatchThen] =
      [SseWrite.done] ∧
    (runSigs "run" initStreamSt
      [Sig.agentRunStart, Sig.deliver "final" (some "x")]).1.finalReplyParts =
      ["x"] ∧
    contentChunk "x" ∉ runWrites "run" initStreamSt
      [Sig.agentRunStart, Sig.deliver "final" (some "x"), Sig.dispatchThen] :=
  ⟨rfl, rfl, by decide⟩

/-- C4, amended: when the dispatch orchestration completes with
`agentRunStarted` false and the stream not closed: if the accumulated final
reply text is non-empty, the adapter emits the role chunk (unless already
emitted), one content chunk carrying the full joined text and one finish
chunk, then [DONE]; if no text exists it closes with [DONE] alone; in every
non-closed case the stream ends closed. In particular, from the initial
state with one final fragment "hello": role chunk, content "hello", finish
chunk, [DONE]. -/
theorem c4_slash_fallback (s : StreamSt) (h : s.closed = false) :
    (s.agentRunStarted = false → joinSep "\n\n" s.finalReplyParts ≠ "" →
      (dispatchThenStep s).2 =
        (if s.wroteRole then [] else [roleChunk]) ++
          [contentChunk (joinSep "\n\n" s.finalReplyParts), finishChunk,
            SseWrite.done]) ∧
    (s.agentRunStarted = false → joinSep "\n\n" s.finalReplyParts = "" →
      (dispatchThenStep s).2 = [SseWrite.done]) ∧
    (dispatchThenStep s).1.closed = true ∧
    runWrites "run" initStreamSt
        [Sig.deliver "final" (some "hello"), Sig.dispatchThen] =
      [roleChunk, contentChunk "hello", finishChunk, SseWrite.done] := by
  refine ⟨?_, ?_, ?_, rfl⟩
  · intro h1 h2
    by_cases hw : s.wroteRole <;> simp [dispatchThenStep, h, h1, h2, hw]
  · intro h1 h2
    simp [dispatchThenStep, h, h1, h2]
  · simp [dispatchThenStep, h]

/-- Witness for the amended C4: slash-command fallback from the initial
state after a blank-free "hello" delivery. -/
theorem c4_slash_fallback_witness :
    (dispatchThenStep ⟨false, false, false, ["hello"], false, false, false⟩).2 =
      [roleChunk, contentChunk "hello", finishChunk, SseWrite.done] := by
  have h := c4_slash_fallback
    ⟨false, false, false, ["hello"], false, false, false⟩ rfl
  have h1 := h.1 rfl (by decide)
  simpa using h1

/-- C5: the plain content chunks of the whole stream (delta chunks with
`finish_reason: null`) carry exactly the non-empty assistant deltas that
match the request's run id and arrive strictly before closure, in arrival
order — none dropped, none duplicated, never batched — provided any
dispatch completion is preceded by the run-start callback (which is how
deltas can flow at all); and any signal arriving after `closed` is true
produces no output. -/
theorem c5_delta_ordering (rid : String) (gs : List Sig)
    (h : ThenAfterStart false gs) :
    contentDeltas (runWrites rid initStreamSt gs) =
      openAssistantDeltas rid false gs ∧
    (∀ (s : StreamSt) (g : Sig), s.closed = true → (stepSig rid s g).2 = []) := by
  refine ⟨?_, fun s g hcl => (step_closed rid s g hcl).1⟩
  exact run_content_deltas rid gs initStreamSt h

/-- Witness for C5: two deltas then a lifecycle end give exactly those two
deltas, in order. -/
theorem c5_delta_ordering_witness :
    contentDeltas (runWrites "run" initStreamSt
      [Sig.agentEvt ⟨"run", "assistant", .vobj [("delta", .vstr "d1")]⟩,
       Sig.agentEvt ⟨"run", "assistant", .vobj [("delta", .vstr "d2")]⟩,
       Sig.agentEvt ⟨"run", "lifecycle", .vobj [("phase", .vstr "end")]⟩]) =
      ["d1", "d2"] := by
  have h := c5_delta_ordering "run"
    [Sig.agentEvt ⟨"run", "assistant", .vobj [("delta", .vstr "d1")]⟩,
     Sig.agentEvt ⟨"run", "assistant", .vobj [("delta", .vstr "d2")]⟩,
     Sig.agentEvt ⟨"run", "lifecycle", .vobj [("phase", .vstr "end")]⟩]
    trivial
  rw [h.1]
  rfl

/-- C10: when dispatch completes with `agentRunStarted` false and nothing
but no-op signals preceded it (no matching delta, no lifecycle end/error,
no disconnect, only blank or non-final deliveries), the entire SSE output
of the request is the [DONE] sentinel alone — no role, content, or finish
chunk is ever written, whatever arrives afterwards. -/
theorem c10_silent_close (rid : String) (pre post : List Sig)
    (hq : ∀ g ∈ pre, quietSig rid g = true) :
    runWrites rid initStreamSt (pre ++ Sig.dispatchThen :: post) =
      [SseWrite.done] := by
  have hpre := quiet_run rid pre hq
  have happ := runSigs_append rid pre (Sig.dispatchThen :: post) initStreamSt
  simp only [runWrites, happ, hpre]
  have hthen : stepSig rid initStreamSt Sig.dispatchThen =
      (⟨false, true, false, [], true, false, true⟩, [SseWrite.done]) := rfl
  simp only [runSigs, hthen]
  have hrest := run_closed rid post ⟨false, true, false, [], true, false, true⟩ rfl
  simp only [runWrites] at hrest
  rw [hrest]
  simp

/-- Witness for C10: a blank final delivery before dispatch completion and
a disconnect after it still yield exactly the bare sentinel. -/
theorem c10_silent_close_witness :
    runWrites "run" initStreamSt
      [Sig.deliver "final" (some " "), Sig.dispatchThen, Sig.reqClose] =
      [SseWrite.done] :=
  c10_silent_close "run" [Sig.deliver "final" (some " ")] [Sig.reqClose]
    (by intro g hg; simp at hg; subst hg; decide)

/-- C6: after dispatch resolves, the non-streaming response is a 200
`chat.completion` object whose single choice's message content is the
accumulated final reply fragments joined with a blank line — or the fixed
placeholder "No response from OpenClaw." when no fragment was accumulated —
with `finish_reason: "stop"` and all usage counters zero; when the dispatch
invocation throws, a 500 JSON `api_error` object carrying the stringified
error is returned instead of the exception propagating. -/
theorem c6_non_streaming_response (runId model : String) (created : Int)
    (delivers : List (String × Option String)) (err : String) :
    (nonStreamingResponse runId model created delivers (Except.ok ())).1 = 200 ∧
    getAt (getAt (getAtIdx
        (getAt (nonStreamingResponse runId model created delivers
          (Except.ok ())).2 "choices") 0) "message") "content" =
      JVal.vstr (if finalPartsOf delivers = [] then "No response from OpenClaw."
        else joinSep "\n\n" (finalPartsOf delivers)) ∧
    getAt (getAt (getAtIdx
        (getAt (nonStreamingResponse runId model created delivers
          (Except.ok ())).2 "choices") 0) "message") "role" =
      JVal.vstr "assistant" ∧
    getAt (getAtIdx (getAt (nonStreamingResponse runId model created delivers
        (Except.ok ())).2 "choices") 0) "finish_reason" = JVal.vstr "stop" ∧
    getAt (getAt (nonStreamingResponse runId model created delivers
        (Except.ok ())).2 "usage") "prompt_tokens" = JVal.vnum 0 ∧
    getAt (getAt (nonStreamingResponse runId model created delivers
        (Except.ok ())).2 "usage") "completion_tokens" = JVal.vnum 0 ∧
    getAt (getAt (nonStreamingResponse runId model created delivers
        (Except.ok ())).2 "usage") "total_tokens" = JVal.vnum 0 ∧
    (nonStreamingResponse runId model created delivers (Except.error err)).1 =
      500 ∧
    getAt (getAt (nonStreamingResponse runId model created delivers
        (Except.error err)).2 "error") "type" = JVal.vstr "api_error" ∧
    getAt (getAt (nonStreamingResponse runId model created delivers
        (Except.error err)).2 "error") "message" = JVal.vstr err := by
  have hcontent : (if joinSep "\n\n" (finalPartsOf delivers) = ""
        then "No response from OpenClaw."
        else joinSep "\n\n" (finalPartsOf delivers)) =
      (if finalPartsOf delivers = [] then "No response from OpenClaw."
        else joinSep "\n\n" (finalPartsOf delivers)) := by
    by_cases hp : finalPartsOf delivers = []
    · simp [hp, joinSep]
    · rw [if_neg hp,
        if_neg (joinSep_ne_empty (finalPartsOf_ne_empty delivers) hp)]
  refine ⟨rfl, ?_, ?_, ?_, ?_, ?_, ?_, rfl, ?_, ?_⟩ <;>
    simp [nonStreamingResponse, chatCompletionJson, apiErrorJson, getAt,
      getAtIdx, getField, getIdx, lookupField, hcontent]

end OpenClawGw
